import Mathlib

/-!
Verification development for the trading-algorithm repository.

The embedding models the signal engine of `main.py` and the state I/O of
`state_manager.py`:

* `calculate_rsi_sma` — the SMA-based RSI over a price series (floats are
  modelled as rationals `ℚ`; Python `None` as `Option.none`);
* `rsi_cache` values — a cache entry is `Option ℚ` because the Python dict
  stores either a float or `None`; `get_rsi` mirrors `dict.get(key, 0)`;
* `logic_tree` / `execute_logic` — the fixed decision graph and the
  traversal loop (the unbounded `while True` loop is given explicit fuel;
  the graph is finite so 40 units are never exhausted);
* `execute_special_logic_35` — the bottom-two tie-break resolver;
* `should_notify` — the notification policy (the ET "today" string, read
  from the clock in Python, is lifted to a parameter);
* `read_state` / `write_state` — the try/except wrappers, with the
  underlying I/O attempt lifted to a parameter.

A Python `TypeError` (comparing or formatting `None`) is modelled by the
`Option`/`RunResult.typeError` failure outcome.
-/

/-- Comparison operator of a decision node: Python `>` or `<`. -/
inductive CmpOp where
  | gt
  | lt
deriving DecidableEq, Repr

/-- The display string of an operator, as stored under the key
`operator` in each node of `logic_tree`. -/
def opStr : CmpOp → String
  | .gt => ">"
  | .lt => "<"

/-- A successor entry of a decision node (`true` / `false` values in the
`logic_tree` dict): either another node id (an `int`) or a terminal
label (a `str`). -/
inductive NodeSucc where
  | node (id : Nat)
  | label (s : String)
deriving DecidableEq, Repr

/-- One node of `logic_tree`: ticker, window, threshold, operator and the
two successors.  The `condition` closure of the Python dict is determined
by these fields (`get_rsi(ticker, window) OP threshold`) and is evaluated
by `evalCond` below. -/
structure Node where
  ticker : String
  window : Nat
  threshold : ℚ
  op : CmpOp
  tSucc : NodeSucc
  fSucc : NodeSucc
deriving DecidableEq, Repr

/-- One entry of `decision_path`: the dict appended per visited node in
`execute_logic` (keys `ticker`, `window`, `operator`, `threshold`,
`result`, `current_rsi`).  `current_rsi` is `Option ℚ` because
`get_rsi` can yield Python `None`. -/
structure DecisionStep where
  ticker : String
  window : Nat
  operator : String
  threshold : ℚ
  result : Bool
  current_rsi : Option ℚ
deriving DecidableEq, Repr

/-- The global `rsi_cache` dict: keys `(ticker, window)`, values float or
`None` (`Option ℚ`).  Modelled as an association list with unique keys;
lookup takes the first match, matching dict semantics. -/
abbrev RsiCache : Type := List ((String × Nat) × Option ℚ)

/-- Python `rsi_cache.get(key)` restricted to presence: `some v` when the
key is present with stored value `v` (itself possibly `None`), `none`
when the key is absent. -/
def rcGet (cache : RsiCache) (key : String × Nat) : Option (Option ℚ) :=
  (cache.find? (fun p => p.1 = key)).map (fun p => p.2)

/-- Source `get_rsi(ticker, window)`: `rsi_cache.get((ticker, window), 0)`.
An absent key yields the default `0`; a present key yields the stored
value, which may be Python `None` (`Option.none`). -/
def get_rsi (cache : RsiCache) (ticker : String) (window : Nat) : Option ℚ :=
  match rcGet cache (ticker, window) with
  | some v => v
  | none => some 0

/-- Evaluation of a node condition `value OP threshold`.  Comparing
Python `None` with a number raises `TypeError`, modelled as `none`. -/
def evalCond (v : Option ℚ) (op : CmpOp) (threshold : ℚ) : Option Bool :=
  v.map (fun x =>
    match op with
    | .gt => decide (threshold < x)
    | .lt => decide (x < threshold))

/-- Arithmetic mean as computed by `np.mean` (rationals model the float
arithmetic; the empty-slice case cannot arise on the guarded paths used
by the theorems below). -/
def meanQ (l : List ℚ) : ℚ :=
  l.sum / l.length

/-- The numpy slice `a[-window:]`: the last `window` elements, except
that `-0` denotes the whole array (the `a[-0:] = a[0:]` quirk). -/
def lastSlice (window : Nat) (l : List ℚ) : List ℚ :=
  if window = 0 then l else l.drop (l.length - window)

/-- Source `np.diff(prices)`: successive differences
`prices[i+1] - prices[i]`. -/
def npDiff (prices : List ℚ) : List ℚ :=
  List.zipWith (fun a b => a - b) prices.tail prices

/-- Source `np.where(diffs > 0, diffs, 0)`: up-magnitudes. -/
def upsOf (prices : List ℚ) : List ℚ :=
  (npDiff prices).map (fun d => if 0 < d then d else 0)

/-- Source `np.where(diffs < 0, np.abs(diffs), 0)`: down-magnitudes. -/
def downsOf (prices : List ℚ) : List ℚ :=
  (npDiff prices).map (fun d => if d < 0 then |d| else 0)

/-- Source `calculate_rsi_sma(prices, window)`: returns `None` when the
series has fewer than `window + 1` points; returns `100.0` when the
average down-magnitude over the window is exactly `0`; otherwise
`100 - 100 / (1 + avg_up / avg_down)`. -/
def calculate_rsi_sma (prices : List ℚ) (window : Nat) : Option ℚ :=
  if prices.length < window + 1 then
    none
  else
    let avg_up := meanQ (lastSlice window (upsOf prices))
    let avg_down := meanQ (lastSlice window (downsOf prices))
    if avg_down = 0 then
      some 100
    else
      some (100 - 100 / (1 + avg_up / avg_down))

/-- The `TICKERS` list of `main.py`. -/
def TICKERS : List String :=
  ["QQQ", "VIXY", "SPY", "IOO", "XLP", "VTV", "XLF", "VOX",
   "CURE", "RETL", "LABU", "SOXL", "FNGU", "TQQQ", "TECL", "UPRO"]

/-- Lookup of a ticker in the downloaded data (`ticker_data`), already
reduced to its NaN-free close-price series. -/
def lookupData (d : List (String × List ℚ)) (t : String) : Option (List ℚ) :=
  (d.find? (fun p => p.1 = t)).map (fun p => p.2)

/-- Source `calculate_all_rsi`: stores `calculate_rsi_sma(prices, 9)`
under `(ticker, 9)` for every ticker of `TICKERS` present in
`ticker_data` (the stored value is `None` when the RSI is unavailable),
then stores the window-50 and window-60 values for VIXY.  The printing
side effects are dropped; the cache contents are as in the source. -/
def calculate_all_rsi (d : List (String × List ℚ)) : RsiCache :=
  (TICKERS.filterMap
    (fun t => (lookupData d t).map (fun ps => ((t, 9), calculate_rsi_sma ps 9))))
  ++ (match lookupData d "VIXY" with
      | some ps => [(("VIXY", 50), calculate_rsi_sma ps 50),
                    (("VIXY", 60), calculate_rsi_sma ps 60)]
      | none => [])

/-- Round-to-even at ties, the rounding used by Python fixed-point
string formatting, computed on a fraction `num / den` with `den`
positive (`Int.fdiv num den` is its floor and `num - floor * den` the
remainder; ties never occur at the concrete values proved below). -/
def roundHalfEvenFrac (num den : ℤ) : ℤ :=
  let f := Int.fdiv num den
  let rem := num - f * den
  if 2 * rem < den then f
  else if den < 2 * rem then f + 1
  else if f % 2 = 0 then f else f + 1

/-- Python `{v:.2f}`: two fractional digits, i.e. the value scaled by
100 (done on the numerator of the reduced fraction), rounded, and split
into integer and fractional digit groups. -/
def fmt2 (x : ℚ) : String :=
  let n := roundHalfEvenFrac (x.num * 100) x.den
  let sign := if n < 0 then "-" else ""
  let m := n.natAbs
  let ip := m / 100
  let fp := m % 100
  sign ++ toString ip ++ "." ++ (if fp < 10 then "0" else "") ++ toString fp

/-- Stable insertion step: the new pair goes in front of the first
element whose RSI is not strictly below its own, so equal values keep
their original relative order (Python `list.sort` is stable). -/
def insertAsc (p : String × ℚ) : List (String × ℚ) → List (String × ℚ)
  | [] => [p]
  | q :: rest => if q.2 < p.2 then q :: insertAsc p rest else p :: q :: rest

/-- Stable ascending sort by RSI value, modelling
`rsi_values.sort(key=lambda x: x[1])`. -/
def sortByRsi : List (String × ℚ) → List (String × ℚ)
  | [] => []
  | p :: rest => insertAsc p (sortByRsi rest)

/-- Source `execute_special_logic_35`: reads the 9-day RSI of SOXL,
TECL, TQQQ, FNGU (in that order), sorts ascending by value with a stable
sort, and renders the bottom two with `{…:.2f}` formatting.  If any of
the four cached values is Python `None` the routine raises `TypeError`
(when printing/sorting), modelled as `none`. -/
def execute_special_logic_35 (cache : RsiCache) : Option String :=
  match get_rsi cache "SOXL" 9, get_rsi cache "TECL" 9,
        get_rsi cache "TQQQ" 9, get_rsi cache "FNGU" 9 with
  | some s, some t, some q, some f =>
    let rsi_values : List (String × ℚ) :=
      [("SOXL", s), ("TECL", t), ("TQQQ", q), ("FNGU", f)]
    match sortByRsi rsi_values with
    | b0 :: b1 :: _ =>
      some ("Buy " ++ b0.1 ++ " and " ++ b1.1 ++
            " (Bottom 2 RSIs: " ++ fmt2 b0.2 ++ ", " ++ fmt2 b1.2 ++ ")")
    | _ => none
  | _, _, _, _ => none

/-- The terminal label reached via the `true` branch of nodes 2, 4, 5,
6, 9, 10, 13, 17, 19, 23, 25 and 29. -/
def vixGroupLabel : String := "1.5x VIX Group (VXX, UVIX)"

/-- The terminal label on the `false` branch of nodes 4 and 6. -/
def vixBlendLabel : String := "VIX Blend (VXX=0.45, VIXM=0.2, UVIX=0.35)"

/-- The terminal label on several `false` branches deeper in the graph. -/
def oneXVixLabel : String := "1x VIX (VIXY)"

/-- Source `logic_tree`: the fixed decision graph of `execute_logic`,
keyed by node id.  Ids absent from the source dict map to `none`
(looking them up in Python would raise `KeyError`). -/
def logic_tree : Nat → Option Node
  | 1 => some ⟨"QQQ", 9, 79, .gt, .node 2, .node 3⟩
  | 2 => some ⟨"VIXY", 50, 40, .gt, .label vixGroupLabel, .node 4⟩
  | 3 => some ⟨"SPY", 9, 79, .gt, .node 5, .node 8⟩
  | 4 => some ⟨"SPY", 9, 165 / 2, .gt, .label vixGroupLabel, .label vixBlendLabel⟩
  | 5 => some ⟨"VIXY", 60, 40, .gt, .label vixGroupLabel, .node 6⟩
  | 6 => some ⟨"QQQ", 9, 165 / 2, .gt, .label vixGroupLabel, .label vixBlendLabel⟩
  | 8 => some ⟨"IOO", 9, 80, .gt, .node 9, .node 12⟩
  | 9 => some ⟨"VIXY", 60, 40, .gt, .label vixGroupLabel, .node 10⟩
  | 10 => some ⟨"IOO", 9, 165 / 2, .gt, .label vixGroupLabel, .label oneXVixLabel⟩
  | 12 => some ⟨"XLP", 9, 77, .gt, .node 13, .node 16⟩
  | 13 => some ⟨"XLP", 9, 165 / 2, .gt, .label vixGroupLabel, .label oneXVixLabel⟩
  | 16 => some ⟨"VTV", 9, 79, .gt, .node 17, .node 18⟩
  | 17 => some ⟨"VTV", 9, 165 / 2, .gt, .label vixGroupLabel, .label oneXVixLabel⟩
  | 18 => some ⟨"XLF", 9, 81, .gt, .node 19, .node 22⟩
  | 19 => some ⟨"XLF", 9, 85, .gt, .label vixGroupLabel, .label oneXVixLabel⟩
  | 22 => some ⟨"VOX", 9, 79, .gt, .node 23, .node 24⟩
  | 23 => some ⟨"VOX", 9, 165 / 2, .gt, .label vixGroupLabel, .label oneXVixLabel⟩
  | 24 => some ⟨"CURE", 9, 82, .gt, .node 25, .node 28⟩
  | 25 => some ⟨"CURE", 9, 85, .gt, .label vixGroupLabel, .label oneXVixLabel⟩
  | 28 => some ⟨"RETL", 9, 82, .gt, .node 29, .node 32⟩
  | 29 => some ⟨"RETL", 9, 85, .gt, .label vixGroupLabel, .label oneXVixLabel⟩
  | 32 => some ⟨"LABU", 9, 79, .gt, .label "LABD", .node 33⟩
  | 33 => some ⟨"SOXL", 9, 25, .lt, .label "SOXL", .node 34⟩
  | 34 => some ⟨"FNGU", 9, 25, .lt, .label "FNGU", .node 35⟩
  | 35 => some ⟨"TQQQ", 9, 28, .lt, .label "SPECIAL_LOGIC", .node 36⟩
  | 36 => some ⟨"TECL", 9, 25, .lt, .label "TECL", .node 37⟩
  | 37 => some ⟨"UPRO", 9, 25, .lt, .label "UPRO", .label "BIL (T-Bill ETF)"⟩
  | _ => none

/-- The `decision_path` record appended for a visited node with
condition outcome `result`. -/
def mkStep (cache : RsiCache) (node : Node) (result : Bool) : DecisionStep :=
  ⟨node.ticker, node.window, opStr node.op, node.threshold, result,
   get_rsi cache node.ticker node.window⟩

/-- The sentinel string `SPECIAL_LOGIC`: a terminal of that name
delegates to `execute_special_logic_35`; any other terminal string is
the final label itself. -/
def resolveLabel (cache : RsiCache) (s : String) : Option String :=
  if s = "SPECIAL_LOGIC" then execute_special_logic_35 cache else some s

/-- Outcome of a traversal of the decision graph.  `typeError` is an
uncaught Python `TypeError` (comparing or formatting `None`);
`keyError` is a lookup of an id absent from `logic_tree`; `outOfFuel`
marks exhaustion of the explicit fuel that replaces `while True`. -/
inductive RunResult where
  | ok (label : String) (path : List DecisionStep)
  | typeError
  | keyError
  | outOfFuel
deriving DecidableEq, Repr

/-- The traversal loop of `execute_logic`, one recursive call per
iteration of `while True`, starting at node id `id`.  The returned path
lists the appended `decision_path` records in order. -/
def execute_logic_aux (cache : RsiCache) : Nat → Nat → RunResult
  | 0, _ => .outOfFuel
  | fuel + 1, id =>
    match logic_tree id with
    | none => .keyError
    | some node =>
      match evalCond (get_rsi cache node.ticker node.window) node.op node.threshold with
      | none => .typeError
      | some result =>
        match (if result then node.tSucc else node.fSucc) with
        | .label s =>
          match resolveLabel cache s with
          | some lbl => .ok lbl [mkStep cache node result]
          | none => .typeError
        | .node id2 =>
          match execute_logic_aux cache fuel id2 with
          | .ok l p => .ok l (mkStep cache node result :: p)
          | r => r

/-- Source `execute_logic`: traversal from entry node 1.  The graph has
21 nodes and every edge increases the node id, so 40 fuel units are
never exhausted. -/
def execute_logic (cache : RsiCache) : RunResult :=
  execute_logic_aux cache 40 1

/-- The parsed persisted-state dict (`trading_state.json`).  The fields
used by `should_notify` are read with `dict.get(key, "")`, so each is
optional with default `""`. -/
structure LastState where
  date : Option String
  signal : Option String
deriving DecidableEq, Repr

/-- Message for rule 1 of `should_notify`. -/
def firstRunMsg : String := "First run ever"

/-- Message for rule 2 of `should_notify`
(`f"First check of trading day ({today})"`). -/
def firstCheckMsg (today : String) : String :=
  "First check of trading day (" ++ today ++ ")"

/-- Message for rule 3 of `should_notify`
(`f"Signal changed: \x27{last}\x27 → \x27{current}\x27"`). -/
def signalChangedMsg (last_signal current_signal : String) : String :=
  "Signal changed: \x27" ++ last_signal ++ "\x27 → \x27" ++ current_signal ++ "\x27"

/-- Message for rule 4 of `should_notify`
(`f"No change (still \x27{current}\x27)"`). -/
def noChangeMsg (current_signal : String) : String :=
  "No change (still \x27" ++ current_signal ++ "\x27)"

/-- Source `should_notify(current_signal, last_state)`.  `today` is the
current ET calendar date string, computed in Python from the clock and
lifted here to a parameter. -/
def should_notify (today : String) (current_signal : String)
    (last_state : Option LastState) : Bool × String :=
  match last_state with
  | none => (true, firstRunMsg)
  | some st =>
    let last_date := st.date.getD ""
    let last_signal := st.signal.getD ""
    if last_date ≠ today then
      (true, firstCheckMsg today)
    else if current_signal ≠ last_signal then
      (true, signalChangedMsg last_signal current_signal)
    else
      (false, noChangeMsg current_signal)

/-- Outcome of an external I/O attempt (S3 or local file access plus
JSON parsing): success with a value, or a raised exception message. -/
inductive IOResult (α : Type) where
  | ok (a : α)
  | err (e : String)
deriving DecidableEq, Repr

/-- Source `read_state` of `state_manager.py`.  `attempt` is the outcome
of the try-block body (S3 `get_object` + parse when on Lambda, file read
+ parse otherwise; `ok none` is the local branch where the state file
does not exist).  Any raised exception is caught, logged, and `None` is
returned. -/
def read_state (attempt : IOResult (Option LastState)) : Option LastState :=
  match attempt with
  | .ok r => r
  | .err _ => none

/-- Source `write_state` of `state_manager.py`.  `attempt` is the
outcome of the try-block body (building the record and the S3 `put` or
file write).  Any raised exception is caught and logged; the function
always returns normally, never re-raising, so the caller (`main`, hence
the Lambda handler) still reports success. -/
def write_state (attempt : IOResult Unit) : IOResult Unit :=
  match attempt with
  | .ok _ => .ok ()
  | .err _ => .ok ()

/-- The traversal invariant, as a relation: `TraceFrom cache id p l`
holds when `p` is the decision path of a traversal that starts at node
`id` and stops at the first visited node whose chosen successor is a
terminal label, `l` being that label (after resolving the
`SPECIAL_LOGIC` sentinel).  Every step before the last moves to a node
successor. -/
inductive TraceFrom (cache : RsiCache) : Nat → List DecisionStep → String → Prop where
  | terminal (id : Nat) (node : Node) (result : Bool) (s label : String) :
      logic_tree id = some node →
      evalCond (get_rsi cache node.ticker node.window) node.op node.threshold = some result →
      (if result then node.tSucc else node.fSucc) = .label s →
      resolveLabel cache s = some label →
      TraceFrom cache id [mkStep cache node result] label
  | cons (id : Nat) (node : Node) (result : Bool) (id2 : Nat)
      (p : List DecisionStep) (label : String) :
      logic_tree id = some node →
      evalCond (get_rsi cache node.ticker node.window) node.op node.threshold = some result →
      (if result then node.tSucc else node.fSucc) = .node id2 →
      TraceFrom cache id2 p label →
      TraceFrom cache id (mkStep cache node result :: p) label

/-- The node ids present in the `logic_tree` dict. -/
def validIds : List Nat :=
  [1, 2, 3, 4, 5, 6, 8, 9, 10, 12, 13, 16, 17, 18, 19, 22, 23, 24, 25,
   28, 29, 32, 33, 34, 35, 36, 37]

/-- Boolean check that a successor entry is either a terminal label or a
defined node id strictly larger than the current one (and at most 37). -/
def succClosed (id : Nat) : NodeSucc → Bool
  | .label _ => true
  | .node j => decide (j ∈ validIds) && decide (id < j) && decide (j ≤ 37)

/-- A synthetic cache for the end-to-end path of the spec: QQQ RSI(9)
is 85 and VIXY RSI(50) is 45. -/
def cacheQqqVixy : RsiCache :=
  [(("QQQ", 9), some 85), (("VIXY", 50), some 45)]

/-- The decision path recorded on that synthetic cache: node 1 then
node 2, both conditions true. -/
def pathQqqVixy : List DecisionStep :=
  [⟨"QQQ", 9, ">", 79, true, some 85⟩, ⟨"VIXY", 50, ">", 40, true, some 45⟩]

/-- The decision path recorded on an all-zero cache: the `false` spine
1, 3, 8, 12, 16, 18, 22, 24, 28, 32 and then node 33, whose condition
`SOXL RSI(9) < 25` holds at 0. -/
def pathAllZero : List DecisionStep :=
  [⟨"QQQ", 9, ">", 79, false, some 0⟩,
   ⟨"SPY", 9, ">", 79, false, some 0⟩,
   ⟨"IOO", 9, ">", 80, false, some 0⟩,
   ⟨"XLP", 9, ">", 77, false, some 0⟩,
   ⟨"VTV", 9, ">", 79, false, some 0⟩,
   ⟨"XLF", 9, ">", 81, false, some 0⟩,
   ⟨"VOX", 9, ">", 79, false, some 0⟩,
   ⟨"CURE", 9, ">", 82, false, some 0⟩,
   ⟨"RETL", 9, ">", 82, false, some 0⟩,
   ⟨"LABU", 9, ">", 79, false, some 0⟩,
   ⟨"SOXL", 9, "<", 25, true, some 0⟩]

/-- The tie-break fixture of the spec: SOXL=20, TECL=30, TQQQ=20,
FNGU=40, each under window 9. -/
def cacheBottomTwo : RsiCache :=
  [(("SOXL", 9), some 20), (("TECL", 9), some 30),
   (("TQQQ", 9), some 20), (("FNGU", 9), some 40)]

/-- A VIXY close series with exactly 60 observations (increasing, so
every computed RSI is 100 where defined). -/
def vixySeries60 : List ℚ :=
  (List.range 60).map (fun n => 100 + n)

/-- The cache produced by `calculate_all_rsi` when the downloaded data
holds only that 60-close VIXY series: the `(VIXY, 60)` entry is present
but stores `None`, since 60 observations are fewer than `60 + 1`. -/
def vixyCache60 : RsiCache :=
  calculate_all_rsi [("VIXY", vixySeries60)]

/-- A cache whose only entry is unavailable (`None`) for the entry
key of the entry node: traversing it raises `TypeError` at node 1. -/
def cacheNoneQqq : RsiCache :=
  [(("QQQ", 9), (none : Option ℚ))]

/-- C5: for every price series with fewer than `window + 1` observations
and every window, `calculate_rsi_sma` returns Unavailable (`none`)
instead of a numeric RSI. -/
theorem C5_short_series_unavailable (prices : List ℚ) (window : Nat)
    (h : prices.length < window + 1) :
    calculate_rsi_sma prices window = none := by
  simp [calculate_rsi_sma, h]

/-- Witness for C5 at the empty series and window 9. -/
theorem C5_short_series_unavailable_witness :
    List.length ([] : List ℚ) < 9 + 1 ∧ calculate_rsi_sma [] 9 = none :=
  ⟨by decide, C5_short_series_unavailable [] 9 (by decide)⟩

/-- C3: a decision node whose `(instrument, window)` key is absent from
the cache sees the default `0` from `get_rsi` — the lookup succeeds with
`0` rather than failing — and its comparison is evaluated against `0`. -/
theorem C3_missing_key_defaults_to_zero (cache : RsiCache) (t : String)
    (w : Nat) (h : rcGet cache (t, w) = none) :
    get_rsi cache t w = some 0
    ∧ ∀ (op : CmpOp) (threshold : ℚ),
        evalCond (get_rsi cache t w) op threshold = evalCond (some 0) op threshold := by
  have hg : get_rsi cache t w = some 0 := by
    unfold get_rsi
    rw [h]
  exact ⟨hg, fun op threshold => by rw [hg]⟩

/-- Witness for C3 on the empty cache at the key of node 1. -/
theorem C3_missing_key_defaults_to_zero_witness :
    rcGet [] ("QQQ", 9) = none
    ∧ get_rsi [] "QQQ" 9 = some 0
    ∧ evalCond (get_rsi [] "QQQ" 9) .gt 79 = evalCond (some 0) .gt 79 :=
  ⟨rfl, (C3_missing_key_defaults_to_zero [] "QQQ" 9 rfl).1,
   (C3_missing_key_defaults_to_zero [] "QQQ" 9 rfl).2 .gt 79⟩

/-- C2: `should_notify` applies its four rules in order: no prior
record → notify "First run ever"; different stored date → notify
"First check of trading day" even when the signal is unchanged; same
date but changed signal → notify "Signal changed"; otherwise no
notification, "No change". -/
theorem C2_notify_rules (today current : String) :
    should_notify today current none = (true, firstRunMsg)
    ∧ (∀ st : LastState, st.date.getD "" ≠ today →
        should_notify today current (some st) = (true, firstCheckMsg today))
    ∧ (∀ st : LastState, st.date.getD "" = today → current ≠ st.signal.getD "" →
        should_notify today current (some st)
          = (true, signalChangedMsg (st.signal.getD "") current))
    ∧ (∀ st : LastState, st.date.getD "" = today → current = st.signal.getD "" →
        should_notify today current (some st) = (false, noChangeMsg current)) := by
  refine ⟨rfl, ?_, ?_, ?_⟩
  · intro st hd
    simp [should_notify, hd]
  · intro st hd hs
    simp [should_notify, hd, hs]
  · intro st hd hs
    simp [should_notify, hd, hs]

/-- Witness for C2: all four rules exercised at concrete dates and
signals. -/
theorem C2_notify_rules_witness :
    should_notify "2025-01-02" "X" none = (true, firstRunMsg)
    ∧ should_notify "2025-01-02" "X" (some ⟨some "2025-01-01", some "X"⟩)
        = (true, firstCheckMsg "2025-01-02")
    ∧ should_notify "2025-01-02" "Y" (some ⟨some "2025-01-02", some "X"⟩)
        = (true, signalChangedMsg "X" "Y")
    ∧ should_notify "2025-01-02" "X" (some ⟨some "2025-01-02", some "X"⟩)
        = (false, noChangeMsg "X") :=
  ⟨(C2_notify_rules "2025-01-02" "X").1,
   (C2_notify_rules "2025-01-02" "X").2.1 ⟨some "2025-01-01", some "X"⟩ (by decide),
   (C2_notify_rules "2025-01-02" "Y").2.2.1 ⟨some "2025-01-02", some "X"⟩ (by decide) (by decide),
   (C2_notify_rules "2025-01-02" "X").2.2.2 ⟨some "2025-01-02", some "X"⟩ (by decide) (by decide)⟩

/-- C9: state I/O failures never propagate: a failing `read_state`
attempt yields `None` (no prior record, which forces a notification),
and `write_state` returns normally on every attempt outcome, reporting
success to its caller. -/
theorem C9_state_io_nonfatal (e today current : String)
    (attempt : IOResult Unit) :
    read_state (.err e) = none
    ∧ (should_notify today current (read_state (.err e))).1 = true
    ∧ write_state attempt = .ok () := by
  refine ⟨rfl, rfl, ?_⟩
  cases attempt <;> rfl

/-- C4 counterexample: on the fixture of the spec (SOXL=20, TECL=30,
TQQQ=20, FNGU=40) the Tie-break Resolver does NOT return the claimed
string with one-decimal formatting — the source formats with `{…:.2f}`,
i.e. two decimal places. -/
theorem C4_one_decimal_refuted :
    execute_special_logic_35 cacheBottomTwo
      ≠ some "Buy SOXL and TQQQ (Bottom 2 RSIs: 20.0, 20.0)" := by
  decide

/-- C4 amended: the resolver sorts ascending with a stable sort (the
SOXL/TQQQ tie keeps candidate order), takes the two lowest, and returns
exactly the string with values formatted to TWO decimal places. -/
theorem C4_bottom_two_stable :
    sortByRsi [("SOXL", 20), ("TECL", 30), ("TQQQ", 20), ("FNGU", 40)]
      = [("SOXL", 20), ("TQQQ", 20), ("TECL", 30), ("FNGU", 40)]
    ∧ execute_special_logic_35 cacheBottomTwo
      = some "Buy SOXL and TQQQ (Bottom 2 RSIs: 20.00, 20.00)" := by
  constructor
  · decide
  · decide

/-- C10: with a VIXY series of exactly 60 closes, `calculate_rsi_sma`
is Unavailable for the 60-day window, `calculate_all_rsi` still stores
`None` under `(VIXY, 60)`, `get_rsi` on that present-but-unavailable
entry returns the stored `None` — not the absent-key default `0` — and
the comparison of a decision node applied to it is a `TypeError`,
not a comparison against 0. -/
theorem C10_stored_none_not_defaulted :
    vixySeries60.length = 60
    ∧ calculate_rsi_sma vixySeries60 60 = none
    ∧ rcGet vixyCache60 ("VIXY", 60) = some none
    ∧ get_rsi vixyCache60 "VIXY" 60 = none
    ∧ get_rsi vixyCache60 "VIXY" 60 ≠ some 0
    ∧ evalCond (get_rsi vixyCache60 "VIXY" 60) .gt 40 = none := by
  refine ⟨by decide, by decide, by decide, by decide, by decide, by decide⟩

/-- Soundness of the traversal loop against the path invariant: every
successful traversal from node `id` yields a path related to its label
by `TraceFrom` at `id`. -/
theorem execute_logic_aux_trace :
    ∀ (fuel id : Nat) (cache : RsiCache) (l : String) (p : List DecisionStep),
      execute_logic_aux cache fuel id = .ok l p → TraceFrom cache id p l := by
  intro fuel
  induction fuel with
  | zero =>
    intro id cache l p h
    exact absurd h (by simp [execute_logic_aux])
  | succ f ih =>
    intro id cache l p h
    rw [execute_logic_aux] at h
    cases hlt : logic_tree id with
    | none =>
      simp only [hlt] at h
      exact RunResult.noConfusion h
    | some node =>
      simp only [hlt] at h
      cases hec : evalCond (get_rsi cache node.ticker node.window) node.op node.threshold with
      | none =>
        simp only [hec] at h
        exact RunResult.noConfusion h
      | some result =>
        simp only [hec] at h
        cases hsucc : (if result then node.tSucc else node.fSucc) with
        | label s =>
          simp only [hsucc] at h
          cases hres : resolveLabel cache s with
          | none =>
            simp only [hres] at h
            exact RunResult.noConfusion h
          | some lbl =>
            simp only [hres] at h
            obtain ⟨hl, hp⟩ := RunResult.ok.inj h
            subst hl
            subst hp
            exact TraceFrom.terminal id node result s lbl hlt hec hsucc hres
        | node id2 =>
          simp only [hsucc] at h
          cases haux : execute_logic_aux cache f id2 with
          | ok l2 p2 =>
            simp only [haux] at h
            obtain ⟨hl, hp⟩ := RunResult.ok.inj h
            subst hl
            subst hp
            exact TraceFrom.cons id node result id2 p2 l2 hlt hec hsucc (ih id2 cache l2 p2 haux)
          | typeError =>
            simp only [haux] at h
            exact RunResult.noConfusion h
          | keyError =>
            simp only [haux] at h
            exact RunResult.noConfusion h
          | outOfFuel =>
            simp only [haux] at h
            exact RunResult.noConfusion h

/-- Completeness of the path invariant for the traversal loop: a
`TraceFrom` derivation determines the traversal outcome whenever the
fuel covers the path length. -/
theorem trace_to_aux :
    ∀ (cache : RsiCache) (id : Nat) (p : List DecisionStep) (l : String),
      TraceFrom cache id p l → ∀ fuel : Nat, p.length ≤ fuel →
        execute_logic_aux cache fuel id = .ok l p := by
  intro cache id p l ht
  induction ht with
  | terminal id node result s label hlt hec hsucc hres =>
    intro fuel hf
    cases fuel with
    | zero => simp at hf
    | succ f =>
      rw [execute_logic_aux]
      simp only [hlt, hec, hsucc, hres]
  | cons id node result id2 p label hlt hec hsucc ht2 ih =>
    intro fuel hf
    cases fuel with
    | zero => simp at hf
    | succ f =>
      have hp : p.length ≤ f := by
        simp only [List.length_cons] at hf
        omega
      rw [execute_logic_aux]
      simp only [hlt, hec, hsucc]
      rw [ih f hp]

/-- C1: on every cache mapping `(QQQ, 9)` to 85 and `(VIXY, 50)` to 45,
`execute_logic` returns the terminal "1.5x VIX Group (VXX, UVIX)" with a
two-step DecisionPath (node 1: QQQ RSI(9) > 79 true, then node 2:
VIXY RSI(50) > 40 true); and on every cache, a returned DecisionPath
starts at the entry node (id 1) and ends at the first node whose chosen
successor is a terminal label (the `TraceFrom cache 1` invariant). -/
theorem C1_end_to_end_and_invariant :
    (∀ cache : RsiCache,
        rcGet cache ("QQQ", 9) = some (some 85) →
        rcGet cache ("VIXY", 50) = some (some 45) →
        execute_logic cache = .ok vixGroupLabel pathQqqVixy)
    ∧ (∀ (cache : RsiCache) (l : String) (p : List DecisionStep),
        execute_logic cache = .ok l p → TraceFrom cache 1 p l) := by
  constructor
  · intro cache h1 h2
    have hq : get_rsi cache "QQQ" 9 = some 85 := by
      unfold get_rsi
      rw [h1]
    have hv : get_rsi cache "VIXY" 50 = some 45 := by
      unfold get_rsi
      rw [h2]
    have hs1 : mkStep cache ⟨"QQQ", 9, 79, CmpOp.gt, .node 2, .node 3⟩ true
        = DecisionStep.mk "QQQ" 9 ">" 79 true (some 85) := by
      simp [mkStep, opStr, hq]
    have hs2 : mkStep cache ⟨"VIXY", 50, 40, CmpOp.gt, .label vixGroupLabel, .node 4⟩ true
        = DecisionStep.mk "VIXY" 50 ">" 40 true (some 45) := by
      simp [mkStep, opStr, hv]
    have ht2 : TraceFrom cache 2 [DecisionStep.mk "VIXY" 50 ">" 40 true (some 45)]
        vixGroupLabel := by
      have h := @TraceFrom.terminal cache 2
        ⟨"VIXY", 50, 40, CmpOp.gt, .label vixGroupLabel, .node 4⟩ true
        vixGroupLabel vixGroupLabel rfl (by rw [hv]; rfl) rfl rfl
      rwa [hs2] at h
    have ht : TraceFrom cache 1 pathQqqVixy vixGroupLabel := by
      have h := @TraceFrom.cons cache 1
        ⟨"QQQ", 9, 79, CmpOp.gt, .node 2, .node 3⟩ true 2
        [DecisionStep.mk "VIXY" 50 ">" 40 true (some 45)] vixGroupLabel
        rfl (by rw [hq]; rfl) rfl ht2
      rw [hs1] at h
      exact h
    exact trace_to_aux cache 1 pathQqqVixy vixGroupLabel ht 40 (by decide)
  · intro cache l p h
    exact execute_logic_aux_trace 40 1 cache l p h

/-- Witness for C1 on the synthetic two-entry cache. -/
theorem C1_end_to_end_and_invariant_witness :
    execute_logic cacheQqqVixy = .ok vixGroupLabel pathQqqVixy
    ∧ TraceFrom cacheQqqVixy 1 pathQqqVixy vixGroupLabel := by
  have h := C1_end_to_end_and_invariant.1 cacheQqqVixy (by decide) (by decide)
  exact ⟨h, C1_end_to_end_and_invariant.2 cacheQqqVixy vixGroupLabel pathQqqVixy h⟩

/-- The tie-break resolver reads the cache only through `get_rsi`. -/
theorem execute_special_logic_35_congr (c1 c2 : RsiCache)
    (h : ∀ t w, get_rsi c1 t w = get_rsi c2 t w) :
    execute_special_logic_35 c1 = execute_special_logic_35 c2 := by
  unfold execute_special_logic_35
  rw [h "SOXL" 9, h "TECL" 9, h "TQQQ" 9, h "FNGU" 9]

/-- The traversal reads the cache only through `get_rsi`. -/
theorem execute_logic_aux_congr (c1 c2 : RsiCache)
    (h : ∀ t w, get_rsi c1 t w = get_rsi c2 t w) :
    ∀ (fuel id : Nat), execute_logic_aux c1 fuel id = execute_logic_aux c2 fuel id := by
  intro fuel
  induction fuel with
  | zero =>
    intro id
    rfl
  | succ f ih =>
    intro id
    rw [execute_logic_aux, execute_logic_aux]
    cases hlt : logic_tree id with
    | none =>
      simp only [hlt]
    | some node =>
      simp only [hlt]
      rw [h node.ticker node.window]
      cases hec : evalCond (get_rsi c2 node.ticker node.window) node.op node.threshold with
      | none =>
        simp only [hec]
      | some result =>
        simp only [hec]
        have hms : mkStep c1 node result = mkStep c2 node result := by
          unfold mkStep
          rw [h node.ticker node.window]
        cases hsucc : (if result then node.tSucc else node.fSucc) with
        | label s =>
          simp only [hsucc]
          rw [hms]
          unfold resolveLabel
          rw [execute_special_logic_35_congr c1 c2 h]
        | node id2 =>
          simp only [hsucc]
          rw [ih id2, hms]

/-- On a cache whose stored values are all `0`, every `get_rsi` lookup
agrees with the empty cache (both give `some 0`). -/
theorem get_rsi_all_zero (cache : RsiCache) (h : ∀ p ∈ cache, p.2 = some 0) :
    ∀ t w, get_rsi cache t w = get_rsi [] t w := by
  intro t w
  cases hf : List.find? (fun p => p.1 = (t, w)) cache with
  | none =>
    simp [get_rsi, rcGet, hf]
  | some pr =>
    have hz := h pr (List.mem_of_find?_eq_some hf)
    simp [get_rsi, rcGet, hf, hz]

/-- C7: the Signal Tree Evaluator is deterministic — two evaluations
over the same cache give the same outcome (label and path), the graph
being a pure function of the cache with no hidden state; in particular
every cache whose indicator values are all 0 reaches the terminal
"SOXL" through the recorded 11-step false-spine path. -/
theorem C7_deterministic (cache : RsiCache) :
    execute_logic cache = execute_logic cache
    ∧ ((∀ p ∈ cache, p.2 = some 0) →
        execute_logic cache = .ok "SOXL" pathAllZero) := by
  refine ⟨rfl, fun hz => ?_⟩
  have hcongr : execute_logic cache = execute_logic ([] : RsiCache) := by
    unfold execute_logic
    exact execute_logic_aux_congr cache [] (get_rsi_all_zero cache hz) 40 1
  rw [hcongr]
  decide

/-- Witness for C7 on a one-entry all-zero cache. -/
theorem C7_deterministic_witness :
    execute_logic [(("QQQ", 9), some 0)] = execute_logic [(("QQQ", 9), some 0)]
    ∧ execute_logic [(("QQQ", 9), some 0)] = .ok "SOXL" pathAllZero :=
  ⟨(C7_deterministic [(("QQQ", 9), some 0)]).1,
   (C7_deterministic [(("QQQ", 9), some 0)]).2 (by decide)⟩

/-- Every id present in the graph is at most 37. -/
theorem validIds_le_37 : ∀ id ∈ validIds, id ≤ 37 := by
  decide

/-- Bulk check of the graph shape: every node of `logic_tree` exists
and each of its successors is a terminal label or a strictly larger
defined node id — the graph is acyclic by increasing ids. -/
theorem graph_closed_check :
    (validIds.all (fun id =>
      match logic_tree id with
      | some n => succClosed id n.tSucc && succClosed id n.fSucc
      | none => false)) = true := by
  decide

/-- Unpacking `succClosed` on a node successor. -/
theorem succClosed_node (id j : Nat) (s : NodeSucc)
    (hcl : succClosed id s = true) (hs : s = .node j) :
    j ∈ validIds ∧ id < j ∧ j ≤ 37 := by
  subst hs
  simp only [succClosed, Bool.and_eq_true, decide_eq_true_eq] at hcl
  exact ⟨hcl.1.1, hcl.1.2, hcl.2⟩

/-- Pointwise form of the bulk graph check. -/
theorem logic_tree_closed :
    ∀ id ∈ validIds, ∃ n, logic_tree id = some n
      ∧ succClosed id n.tSucc = true ∧ succClosed id n.fSucc = true := by
  intro id hid
  have h := List.all_eq_true.mp graph_closed_check id hid
  cases hlt : logic_tree id with
  | none =>
    simp only [hlt] at h
    exact absurd h (by simp)
  | some n =>
    simp only [hlt, Bool.and_eq_true] at h
    exact ⟨n, rfl, h.1, h.2⟩

/-- The traversal loop never exhausts its fuel from a defined node:
successor ids strictly increase and stay at most 37, so `38 - id` fuel
always suffices. -/
theorem aux_not_outOfFuel :
    ∀ (fuel id : Nat), id ∈ validIds → 38 - id ≤ fuel →
      ∀ cache : RsiCache, execute_logic_aux cache fuel id ≠ .outOfFuel := by
  intro fuel
  induction fuel with
  | zero =>
    intro id hid hle cache
    have h37 := validIds_le_37 id hid
    exact absurd hle (by omega)
  | succ f ih =>
    intro id hid hle cache
    obtain ⟨n, hlt, hclT, hclF⟩ := logic_tree_closed id hid
    rw [execute_logic_aux]
    simp only [hlt]
    cases hec : evalCond (get_rsi cache n.ticker n.window) n.op n.threshold with
    | none =>
      simp
    | some result =>
      simp only
      cases hsucc : (if result then n.tSucc else n.fSucc) with
      | label s =>
        simp only
        cases resolveLabel cache s <;> simp
      | node id2 =>
        simp only
        have hcl : succClosed id (if result then n.tSucc else n.fSucc) = true := by
          cases result
          · simpa using hclF
          · simpa using hclT
        obtain ⟨h1, h2, h3⟩ := succClosed_node id id2 _ hcl hsucc
        have hrec := ih id2 h1 (by omega) cache
        cases haux : execute_logic_aux cache f id2 with
        | ok l p => simp
        | typeError => simp
        | keyError => simp
        | outOfFuel => exact absurd haux hrec

/-- On a cache whose stored values are all numeric, `get_rsi` always
yields a number (the absent-key default included). -/
theorem get_rsi_total (cache : RsiCache)
    (h : ∀ p ∈ cache, p.2.isSome = true) (t : String) (w : Nat) :
    ∃ q, get_rsi cache t w = some q := by
  cases hf : List.find? (fun p => p.1 = (t, w)) cache with
  | none =>
    exact ⟨0, by simp [get_rsi, rcGet, hf]⟩
  | some pr =>
    have hs := h pr (List.mem_of_find?_eq_some hf)
    cases hv : pr.2 with
    | none =>
      rw [hv] at hs
      exact absurd hs (by simp)
    | some q =>
      exact ⟨q, by simp [get_rsi, rcGet, hf, hv]⟩

/-- Insertion grows the list by one element. -/
theorem insertAsc_length (p : String × ℚ) :
    ∀ l : List (String × ℚ), (insertAsc p l).length = l.length + 1 := by
  intro l
  induction l with
  | nil => rfl
  | cons q rest ih =>
    rw [insertAsc]
    split
    · simp [ih]
    · simp

/-- The stable sort preserves length. -/
theorem sortByRsi_length :
    ∀ l : List (String × ℚ), (sortByRsi l).length = l.length := by
  intro l
  induction l with
  | nil => rfl
  | cons p rest ih =>
    rw [sortByRsi, insertAsc_length, ih, List.length_cons]

/-- On a cache whose stored values are all numeric, the tie-break
resolver returns a label (no `TypeError`). -/
theorem execute_special_logic_35_total (cache : RsiCache)
    (h : ∀ p ∈ cache, p.2.isSome = true) :
    ∃ s, execute_special_logic_35 cache = some s := by
  obtain ⟨a, ha⟩ := get_rsi_total cache h "SOXL" 9
  obtain ⟨b, hb⟩ := get_rsi_total cache h "TECL" 9
  obtain ⟨c, hc⟩ := get_rsi_total cache h "TQQQ" 9
  obtain ⟨d, hd⟩ := get_rsi_total cache h "FNGU" 9
  unfold execute_special_logic_35
  rw [ha, hb, hc, hd]
  show ∃ s,
    (match sortByRsi [("SOXL", a), ("TECL", b), ("TQQQ", c), ("FNGU", d)] with
      | b0 :: b1 :: _ =>
        some ("Buy " ++ b0.1 ++ " and " ++ b1.1 ++
              " (Bottom 2 RSIs: " ++ fmt2 b0.2 ++ ", " ++ fmt2 b1.2 ++ ")")
      | _ => none) = some s
  have hlen : (sortByRsi [("SOXL", a), ("TECL", b), ("TQQQ", c), ("FNGU", d)]).length = 4 := by
    rw [sortByRsi_length]
    rfl
  cases hs : sortByRsi [("SOXL", a), ("TECL", b), ("TQQQ", c), ("FNGU", d)] with
  | nil =>
    rw [hs] at hlen
    exact absurd hlen (by simp)
  | cons b0 tl =>
    cases tl with
    | nil =>
      rw [hs] at hlen
      exact absurd hlen (by simp)
    | cons b1 rest =>
      exact ⟨_, rfl⟩

/-- On a cache whose stored values are all numeric, the traversal from
any defined node reaches a terminal label within the available fuel. -/
theorem aux_total_ok :
    ∀ (fuel id : Nat), id ∈ validIds → 38 - id ≤ fuel →
      ∀ cache : RsiCache, (∀ p ∈ cache, p.2.isSome = true) →
        ∃ l path, execute_logic_aux cache fuel id = .ok l path := by
  intro fuel
  induction fuel with
  | zero =>
    intro id hid hle cache hc
    have h37 := validIds_le_37 id hid
    exact absurd hle (by omega)
  | succ f ih =>
    intro id hid hle cache hc
    obtain ⟨n, hlt, hclT, hclF⟩ := logic_tree_closed id hid
    obtain ⟨q, hq⟩ := get_rsi_total cache hc n.ticker n.window
    obtain ⟨r, hec⟩ : ∃ r, evalCond (get_rsi cache n.ticker n.window) n.op n.threshold = some r := by
      rw [hq]
      exact ⟨_, rfl⟩
    rw [execute_logic_aux]
    simp only [hlt, hec]
    cases hsucc : (if r then n.tSucc else n.fSucc) with
    | label s =>
      simp only
      unfold resolveLabel
      by_cases hsp : s = "SPECIAL_LOGIC"
      · rw [if_pos hsp]
        obtain ⟨lbl, hlbl⟩ := execute_special_logic_35_total cache hc
        rw [hlbl]
        exact ⟨lbl, _, rfl⟩
      · rw [if_neg hsp]
        exact ⟨s, _, rfl⟩
    | node id2 =>
      have hcl : succClosed id (if r then n.tSucc else n.fSucc) = true := by
        cases r
        · simpa using hclF
        · simpa using hclT
      obtain ⟨h1, h2, h3⟩ := succClosed_node id id2 _ hcl hsucc
      obtain ⟨l2, p2, haux⟩ := ih id2 h1 (by omega) cache hc
      simp only
      rw [haux]
      exact ⟨l2, _, rfl⟩

/-- C8 counterexample: on a cache whose `(QQQ, 9)` entry is present but
unavailable (`None`), the traversal does NOT reach a terminal string and
return — it aborts with a `TypeError` at the comparison of node 1.  The
universal reading "for every IndicatorCache … reaches a terminal string
and returns" is therefore false as stated. -/
theorem C8_every_cache_refuted :
    execute_logic cacheNoneQqq = .typeError := by
  decide

/-- C8 amended: for every cache the traversal loop runs only finitely
many steps (the acyclic graph never exhausts the fuel that replaces
`while True`), and on every cache whose stored values are all numeric
it reaches a node whose chosen successor is a terminal string and
returns that label from entry node 1. -/
theorem C8_terminates (cache : RsiCache) :
    execute_logic cache ≠ .outOfFuel
    ∧ ((∀ p ∈ cache, p.2.isSome = true) →
        ∃ l path, execute_logic cache = .ok l path) := by
  constructor
  · exact aux_not_outOfFuel 40 1 (by decide) (by decide) cache
  · intro hc
    exact aux_total_ok 40 1 (by decide) (by decide) cache hc

/-- Witness for C8 on the empty cache (vacuously all-numeric). -/
theorem C8_terminates_witness :
    execute_logic ([] : RsiCache) ≠ .outOfFuel
    ∧ (∃ l path, execute_logic ([] : RsiCache) = .ok l path) :=
  ⟨(C8_terminates []).1, (C8_terminates []).2 (by decide)⟩

/-- The numpy tail slice commutes with elementwise maps. -/
theorem lastSlice_map (f : ℚ → ℚ) (w : Nat) (l : List ℚ) :
    lastSlice w (l.map f) = (lastSlice w l).map f := by
  unfold lastSlice
  split
  · rfl
  · rw [List.length_map, List.map_drop]

/-- Length of the numpy tail slice when the window fits. -/
theorem lastSlice_length (w : Nat) (l : List ℚ) (hw : w ≠ 0) (hle : w ≤ l.length) :
    (lastSlice w l).length = w := by
  unfold lastSlice
  rw [if_neg hw, List.length_drop]
  omega

/-- `np.diff` has one element fewer than the series. -/
theorem npDiff_length (prices : List ℚ) :
    (npDiff prices).length = prices.length - 1 := by
  unfold npDiff
  rw [List.length_zipWith, List.length_tail]
  omega

/-- C6: with at least `window + 1` observations (and a positive window),
`calculate_rsi_sma` returns exactly 100 when the most recent `window`
successive differences are all non-negative (the average down-magnitude
is then exactly 0), and otherwise returns
`100 - 100 / (1 + averageUp / averageDown)`. -/
theorem C6_rsi_guard_and_formula (prices : List ℚ) (window : Nat)
    (hw : 1 ≤ window) (hlen : window + 1 ≤ prices.length) :
    ((∀ d ∈ lastSlice window (npDiff prices), 0 ≤ d) →
        calculate_rsi_sma prices window = some 100)
    ∧ (¬(∀ d ∈ lastSlice window (npDiff prices), 0 ≤ d) →
        calculate_rsi_sma prices window
          = some (100 - 100 / (1 + meanQ (lastSlice window (upsOf prices))
              / meanQ (lastSlice window (downsOf prices))))) := by
  have hnotshort : ¬(prices.length < window + 1) := by omega
  have hslice : lastSlice window (downsOf prices)
      = (lastSlice window (npDiff prices)).map (fun d => if d < 0 then |d| else 0) := by
    unfold downsOf
    exact lastSlice_map _ window (npDiff prices)
  constructor
  · intro hpos
    have hzero : ∀ x ∈ lastSlice window (downsOf prices), x = 0 := by
      rw [hslice]
      intro x hx
      obtain ⟨d, hd, rfl⟩ := List.mem_map.mp hx
      rw [if_neg (not_lt.mpr (hpos d hd))]
    have hmean : meanQ (lastSlice window (downsOf prices)) = 0 := by
      unfold meanQ
      rw [List.sum_eq_zero hzero]
      simp
    unfold calculate_rsi_sma
    rw [if_neg hnotshort]
    simp [hmean]
  · intro hneg
    push_neg at hneg
    obtain ⟨d, hd, hdneg⟩ := hneg
    have hmem : (if d < 0 then |d| else 0) ∈ lastSlice window (downsOf prices) := by
      rw [hslice]
      exact List.mem_map.mpr ⟨d, hd, rfl⟩
    have hnonneg : ∀ x ∈ lastSlice window (downsOf prices), 0 ≤ x := by
      rw [hslice]
      intro x hx
      obtain ⟨e, he, rfl⟩ := List.mem_map.mp hx
      by_cases he2 : e < 0
      · rw [if_pos he2]
        exact abs_nonneg e
      · rw [if_neg he2]
    have hxpos : 0 < (if d < 0 then |d| else 0) := by
      rw [if_pos hdneg]
      exact abs_pos.mpr (ne_of_lt hdneg)
    have hsum : 0 < (lastSlice window (downsOf prices)).sum :=
      lt_of_lt_of_le hxpos (List.single_le_sum hnonneg _ hmem)
    have hlenslice : (lastSlice window (downsOf prices)).length = window := by
      apply lastSlice_length window _ (by omega)
      unfold downsOf
      rw [List.length_map, npDiff_length]
      omega
    have hmean : meanQ (lastSlice window (downsOf prices)) ≠ 0 := by
      unfold meanQ
      rw [hlenslice]
      have hwpos : (0 : ℚ) < (window : ℚ) := by
        exact_mod_cast Nat.lt_of_lt_of_le Nat.zero_lt_one hw
      exact ne_of_gt (div_pos hsum hwpos)
    unfold calculate_rsi_sma
    rw [if_neg hnotshort]
    simp [hmean]

/-- Witness for C6: a strictly rising 10-price series gives RSI 100 at
window 9, and the worked 10-price example of the spec (which has negative
recent differences) takes the non-guard formula branch. -/
theorem C6_rsi_guard_and_formula_witness :
    calculate_rsi_sma [100, 101, 102, 103, 104, 105, 106, 107, 108, 109] 9 = some 100
    ∧ calculate_rsi_sma [100, 102, 101, 103, 102, 104, 105, 103, 106, 107] 9
      = some (100 - 100 / (1 + meanQ (lastSlice 9 (upsOf [100, 102, 101, 103, 102, 104, 105, 103, 106, 107]))
          / meanQ (lastSlice 9 (downsOf [100, 102, 101, 103, 102, 104, 105, 103, 106, 107])))) := by
  constructor
  · refine (C6_rsi_guard_and_formula [100, 101, 102, 103, 104, 105, 106, 107, 108, 109] 9
      (by decide) (by decide)).1 ?_
    have hdiff : npDiff [(100 : ℚ), 101, 102, 103, 104, 105, 106, 107, 108, 109]
        = [1, 1, 1, 1, 1, 1, 1, 1, 1] := by
      norm_num [npDiff]
    rw [hdiff]
    norm_num [lastSlice]
  · refine (C6_rsi_guard_and_formula [100, 102, 101, 103, 102, 104, 105, 103, 106, 107] 9
      (by decide) (by decide)).2 ?_
    have hdiff : npDiff [(100 : ℚ), 102, 101, 103, 102, 104, 105, 103, 106, 107]
        = [2, -1, 2, -1, 2, 1, -2, 3, 1] := by
      norm_num [npDiff]
    rw [hdiff]
    norm_num [lastSlice]
